import Mathlib

/-!
Shallow embedding of the import reconciliation engine of the viwoods
note-import plugin (source: src/unnamed/part_001).  Strings, association
lists and explicit oracles stand in for JS strings, JS objects/Maps and
the host vault; each definition mirrors one source function and is kept
executable so that concrete runs can be checked by `decide`.
-/

namespace Viwoods

/-- JS `s.substring(0, n)`. -/
def jsSubstringTo (s : String) (n : Nat) : String :=
  ⟨s.data.take n⟩

/-- JS `s.padEnd(n, c)`: append copies of `c` up to length `n`. -/
def jsPadEnd (s : String) (n : Nat) (c : Char) : String :=
  ⟨s.data ++ List.replicate (n - s.data.length) c⟩

/-- JS `s.padStart(n, c)`: prepend copies of `c` up to length `n`. -/
def jsPadStart (s : String) (n : Nat) (c : Char) : String :=
  ⟨List.replicate (n - s.data.length) c ++ s.data⟩

/-- JS `s.startsWith(p)`: `p` is a leading substring of `s`. -/
def jsStartsWith (s p : String) : Bool :=
  s.data.take p.data.length == p.data

/-- JS truthiness of `a || b` where `a : string | undefined`:
`undefined` and the empty string fall through to `b`. -/
def jsOrString : Option String → String → String
  | some s, d => if s = "" then d else s
  | none, d => d

/-- JS `b.toString(16).padStart(2, '0')` for a byte `b < 256`
(`analyzeChanges` only feeds SHA-256 output bytes into this). -/
def byteToHex (b : Nat) : String :=
  ⟨[Nat.digitChar (b / 16 % 16), Nat.digitChar (b % 16)]⟩

/-- Source `hashImageData` (part_001 lines 1300-1313).  The digest
computation `crypto.subtle.digest('SHA-256', buffer)` is an oracle:
`some bytes` is a successful digest (32 bytes for SHA-256), `none` is a
digest failure (the `catch` branch).  On success the bytes are rendered
as lowercase hex and truncated to 32 characters; on failure the result
is `fallback-${blob.size}` padded with '0' to 32 characters. -/
def hashImageData (digestBytes : Option (List Nat)) (blobSize : Nat) : String :=
  match digestBytes with
  | some bytes => jsSubstringTo ⟨(bytes.map fun b => (byteToHex b).data).flatten⟩ 32
  | none => jsSubstringTo (jsPadEnd ("fallback-" ++ toString blobSize) 32 '0') 32

/-- Manifest entry for one imported page (interface `ImportManifest`,
`importedPages` values, part_001 lines 33-44).  Optional TS fields are
`Option`s. -/
structure PageInfo where
  fileName : String
  importDate : String
  imageHash : String
  displayImageHash : Option String := none
  geminiProcessed : Bool
  hasAudio : Option Bool := none
  lastModified : Option String := none
  size : Option Nat := none
  backgroundColor : Option String := none
deriving Repr, DecidableEq

/-- Interface `ImportHistory` (part_001 lines 52-57). -/
structure ImportHistory where
  date : String
  action : String
  pages : List Nat
  summary : String
deriving Repr, DecidableEq

/-- Interface `ImportManifest` (part_001 lines 30-50).  The JS object
`importedPages` keyed by page number is an association list; the
optional `history` array is a plain list (the source treats a missing
history as `[]` before using it). -/
structure ImportManifest where
  bookName : String
  totalPages : Nat
  importedPages : List (Nat × PageInfo)
  lastImport : String
  sourceFile : String
  version : String
  history : List ImportHistory
deriving Repr, DecidableEq

/-- Image slot of interface `PageData`: the blob is abstracted by its
byte size, alongside the fingerprint computed at decode time. -/
structure PageImage where
  size : Nat
  hash : String
deriving Repr, DecidableEq

/-- Audio slot of interface `PageData` (blob abstracted away). -/
structure PageAudio where
  originalName : String
  name : String
deriving Repr, DecidableEq

/-- Interface `PageData` (part_001 lines 59-71); `stroke` only matters
by presence for the executor's SVG branch. -/
structure PageData where
  pageNum : Nat
  image : PageImage
  stroke : Option Unit := none
  audio : Option PageAudio := none
deriving Repr, DecidableEq

/-- Interface `BookResult` (part_001 lines 73-78); `metadata` and
`thumbnail` are never consulted by the verified operations and are
omitted. -/
structure BookResult where
  bookName : String
  pages : List PageData
deriving Repr, DecidableEq

/-- Classification tag of interface `PageChange`. -/
inductive ChangeType where
  | new
  | modified
  | unchanged
  | deleted
deriving Repr, DecidableEq

/-- Interface `PageChange` (part_001 lines 80-86). -/
structure PageChange where
  pageNum : Nat
  type : ChangeType
  oldHash : Option String := none
  newHash : Option String := none
  hasAudioChange : Option Bool := none
deriving Repr, DecidableEq

/-- Interface `ImportSummary` (part_001 lines 88-95). -/
structure ImportSummary where
  totalPages : Nat
  newPages : List Nat
  modifiedPages : List Nat
  unchangedPages : List Nat
  deletedPages : List Nat
  errors : List (Nat × String)
deriving Repr, DecidableEq

/-- The settings fields consulted by the verified operations
(interface `ViwoodsSettings`, part_001 lines 97-119). -/
inductive OutputFormat where
  | png
  | svg
  | both
deriving Repr, DecidableEq

/-- Settings record restricted to the fields the embedded operations
read. -/
structure ViwoodsSettings where
  outputFormat : OutputFormat
  backgroundColor : String
  processWithGemini : Bool
  keepHistory : Bool
  maxHistoryEntries : Nat
deriving Repr, DecidableEq

/-- First-match lookup in an association list, the behaviour of JS
`Map.get` / object indexing for the maps used here. -/
def lookupPage {α : Type} (k : Nat) : List (Nat × α) → Option α
  | [] => none
  | e :: es => if e.1 = k then some e.2 else lookupPage k es

/-- JS `obj[k] = v` on an object used as a map: replace the entry in
place if the key exists, otherwise add it. -/
def setPage {α : Type} (k : Nat) (v : α) : List (Nat × α) → List (Nat × α)
  | [] => [(k, v)]
  | e :: es => if e.1 = k then (k, v) :: es else e :: setPage k v es

/-- JS `Map.delete k` realised on the association list (no duplicate
keys ever arise: the maps come from JS objects). -/
def deletePage {α : Type} (k : Nat) (l : List (Nat × α)) : List (Nat × α) :=
  l.filter fun e => e.1 != k

/-- Value stored in the analyzer's `existingMap` (part_001 line 1351):
the manifest entry plus the optional `original_image_hash` extracted
from the materialized page document's frontmatter. -/
structure ExistingEntry where
  manifestInfo : PageInfo
  fileHash : Option String := none
deriving Repr, DecidableEq

/-- Building of the analyzer's `existingMap` (part_001 lines 1350-1384):
one entry per manifest page, paired with the outcome of reading that
page's document and matching `original_image_hash` in its frontmatter.
The vault read plus regex extraction is the oracle `fileHashes`; a
successful regex match always yields a non-empty `[a-f0-9]+` string. -/
def buildExistingMap (m : ImportManifest) (fileHashes : Nat → Option String) :
    List (Nat × ExistingEntry) :=
  m.importedPages.map fun e => (e.1, { manifestInfo := e.2, fileHash := fileHashes e.1 })

/-- Comparison baseline for a manifest entry: the file's embedded hash
when present, the manifest copy otherwise (source `existing.fileHash ||
existing.manifestInfo.imageHash`, part_001 lines 1400 and 1448). -/
def baselineOf (e : ExistingEntry) : String :=
  jsOrString e.fileHash e.manifestInfo.imageHash

/-- Sentinel test of part_001 lines 1403-1404: `recovered-` or `RESET-`
prefixed fingerprints are never trusted for equality. -/
def isSpecialHash (h : String) : Bool :=
  jsStartsWith h "recovered-" || jsStartsWith h "RESET-"

/-- Loop state of `analyzeChanges`: the `changes` array, the summary
being accumulated, and the shrinking `existingMap`. -/
structure AnalyzeState where
  changes : List PageChange
  summary : ImportSummary
  existingMap : List (Nat × ExistingEntry)
deriving Repr, DecidableEq

/-- Body of the `for (const page of bookResult.pages)` loop of
`analyzeChanges` (part_001 lines 1387-1444): classify one decoded page
against the current `existingMap` and, when matched, delete its entry
to track deletions. -/
def analyzeStep (st : AnalyzeState) (page : PageData) : AnalyzeState :=
  match lookupPage page.pageNum st.existingMap with
  | none =>
    { st with
      changes := st.changes ++
        [{ pageNum := page.pageNum, type := .new, newHash := some page.image.hash }],
      summary := { st.summary with newPages := st.summary.newPages ++ [page.pageNum] } }
  | some existing =>
    let existingHash := jsOrString existing.fileHash existing.manifestInfo.imageHash
    let isRecoveredHash := jsStartsWith existingHash "recovered-"
    let isResetHash := jsStartsWith existingHash "RESET-"
    let hashesMatch := existingHash = page.image.hash
    let audioChange := page.audio.isSome != existing.manifestInfo.hasAudio.getD false
    let st' : AnalyzeState :=
      if isRecoveredHash || isResetHash then
        { st with
          changes := st.changes ++
            [{ pageNum := page.pageNum, type := .modified, oldHash := some existingHash,
               newHash := some page.image.hash, hasAudioChange := some audioChange }],
          summary :=
            { st.summary with modifiedPages := st.summary.modifiedPages ++ [page.pageNum] } }
      else if ¬hashesMatch then
        { st with
          changes := st.changes ++
            [{ pageNum := page.pageNum, type := .modified, oldHash := some existingHash,
               newHash := some page.image.hash, hasAudioChange := some audioChange }],
          summary :=
            { st.summary with modifiedPages := st.summary.modifiedPages ++ [page.pageNum] } }
      else
        { st with
          changes := st.changes ++
            [{ pageNum := page.pageNum, type := .unchanged, oldHash := some existingHash,
               newHash := some page.image.hash }],
          summary :=
            { st.summary with unchangedPages := st.summary.unchangedPages ++ [page.pageNum] } }
    { st' with existingMap := deletePage page.pageNum st'.existingMap }

/-- Source `analyzeChanges` (part_001 lines 1318-1467).  The vault
reads of page documents are summarized by the `fileHashes` oracle
(outcome of the frontmatter regex per manifest page).  With no manifest
every decoded page is new; otherwise each decoded page is classified
against `existingMap` and the entries left over afterwards are
reported deleted. -/
def analyzeChanges (bookResult : BookResult) (existingManifest : Option ImportManifest)
    (fileHashes : Nat → Option String) : List PageChange × ImportSummary :=
  let summary0 : ImportSummary :=
    { totalPages := bookResult.pages.length, newPages := [], modifiedPages := [],
      unchangedPages := [], deletedPages := [], errors := [] }
  match existingManifest with
  | none =>
    (bookResult.pages.map fun page =>
       { pageNum := page.pageNum, type := .new, newHash := some page.image.hash },
     { summary0 with newPages := bookResult.pages.map (·.pageNum) })
  | some m =>
    let st0 : AnalyzeState :=
      { changes := [], summary := summary0, existingMap := buildExistingMap m fileHashes }
    let st1 := bookResult.pages.foldl analyzeStep st0
    let deletedChanges : List PageChange := st1.existingMap.map fun e =>
      { pageNum := e.1, type := .deleted, oldHash := some (baselineOf e.2) }
    (st1.changes ++ deletedChanges,
     { st1.summary with
       deletedPages := st1.summary.deletedPages ++ st1.existingMap.map (·.1) })

/-- Per-page classification against a fixed `existingMap`: the
specification view of one `analyzeStep` iteration, used to state what
the fold computes. -/
def classifyPage (m : List (Nat × ExistingEntry)) (page : PageData) : ChangeType :=
  match lookupPage page.pageNum m with
  | none => .new
  | some existing =>
    if isSpecialHash (baselineOf existing) then .modified
    else if baselineOf existing ≠ page.image.hash then .modified
    else .unchanged

/-- The `PageChange` record one `analyzeStep` iteration emits for a
decoded page, against a fixed `existingMap`. -/
def changeOf (m : List (Nat × ExistingEntry)) (page : PageData) : PageChange :=
  match lookupPage page.pageNum m with
  | none => { pageNum := page.pageNum, type := .new, newHash := some page.image.hash }
  | some existing =>
    let audioChange := page.audio.isSome != existing.manifestInfo.hasAudio.getD false
    if isSpecialHash (baselineOf existing) ∨ baselineOf existing ≠ page.image.hash then
      { pageNum := page.pageNum, type := .modified, oldHash := some (baselineOf existing),
        newHash := some page.image.hash, hasAudioChange := some audioChange }
    else
      { pageNum := page.pageNum, type := .unchanged, oldHash := some (baselineOf existing),
        newHash := some page.image.hash }

/-- Source `addHistoryEntry` (part_001 lines 1488-1506): with history
keeping enabled, a new entry is unshifted onto `manifest.history` and
the list is cut back to `maxHistoryEntries` when it exceeds the cap
(`slice(0, max)`).  `now` stands for `new Date().toISOString()`; the
source's null-history guard is the identity here since `history` is
always a list. -/
def addHistoryEntry (settings : ViwoodsSettings) (now : String) (manifest : ImportManifest)
    (action : String) (pages : List Nat) (summaryText : String) : ImportManifest :=
  if !settings.keepHistory then manifest
  else
    let h := { date := now, action := action, pages := pages,
               summary := summaryText : ImportHistory } :: manifest.history
    { manifest with
      history := if h.length > settings.maxHistoryEntries
                 then h.take settings.maxHistoryEntries else h }

/-- Kinds of vault writes the executor performs for one page; the run
model records them so that frame conditions ("artifact left untouched")
are statable. -/
inductive WriteKind where
  | audioArtifact
  | imageCreate
  | imageRewrite
  | svgArtifact
  | pageDoc
deriving Repr, DecidableEq

/-- Environment of one executor run: the vault contents it probes, the
clock, and the failure oracle.  `throws pageNum = some msg` models an
exception raised by the page's first outer vault operation (the page
body, part_001 lines 2010-2118: audio/image/SVG/document writes), i.e.
after the classification pushes of lines 1965-1967 and before the
manifest update of line 2121; `none` is a fully successful page. -/
structure ExecEnv where
  imageExists : Nat → Bool
  audioExists : Nat → Bool
  svgExists : Nat → Bool
  now : String
  throws : Nat → Option String

/-- State threaded through the executor's batches: the summary being
built, the manifest's `importedPages` (mutated in place by the source),
and the trace of vault writes performed so far. -/
structure ExecState where
  summary : ImportSummary
  manifestPages : List (Nat × PageInfo)
  writes : List (Nat × WriteKind)

/-- Page document file name, source `` `Page ${String(pageNum).padStart(3, '0')}.md` ``. -/
def pageFileName (pageNum : Nat) : String :=
  "Page " ++ jsPadStart (toString pageNum) 3 '0' ++ ".md"

/-- The manifest entry written for a successfully processed page
(part_001 lines 2121-2130).  `oldEntry` is the entry currently in the
run's manifest (`manifest.importedPages[pageNum]`), read for the
`geminiProcessed || false` carry-over. -/
def mkUpdatedEntry (settings : ViwoodsSettings) (env : ExecEnv) (page : PageData)
    (oldEntry : Option PageInfo) : PageInfo :=
  { fileName := pageFileName page.pageNum
    importDate := env.now
    imageHash := page.image.hash
    displayImageHash := none
    geminiProcessed := (oldEntry.map (·.geminiProcessed)).getD false
    hasAudio := some page.audio.isSome
    lastModified := some env.now
    size := some page.image.size
    backgroundColor := some settings.backgroundColor }

/-- Audio artifact write of one page body (part_001 lines 2010-2032):
written when absent, rewritten only when the page is new or modified. -/
def audioWritesFor (env : ExecEnv) (existingManifest : Option ImportManifest)
    (page : PageData) : List WriteKind :=
  let entry := existingManifest.bind fun m => lookupPage page.pageNum m.importedPages
  let isNew := entry.isNone
  let isModified := entry.map (·.imageHash) ≠ some page.image.hash
  match page.audio with
  | none => []
  | some _ =>
    if env.audioExists page.pageNum then
      if isNew || isModified then [.audioArtifact] else []
    else [.audioArtifact]

/-- PNG artifact write of one page body (part_001 lines 2034-2082):
created when absent, rewritten only when the page is new or modified or
the entry's recorded background colour differs from the current
setting. -/
def imageWritesFor (settings : ViwoodsSettings) (env : ExecEnv)
    (existingManifest : Option ImportManifest) (page : PageData) : List WriteKind :=
  let entry := existingManifest.bind fun m => lookupPage page.pageNum m.importedPages
  let isNew := entry.isNone
  let isModified := entry.map (·.imageHash) ≠ some page.image.hash
  if settings.outputFormat = .png ∨ settings.outputFormat = .both then
    let needsImageUpdate := isNew || isModified
    let backgroundChanged :=
      (entry.bind (·.backgroundColor)) ≠ some settings.backgroundColor
    if env.imageExists page.pageNum then
      if needsImageUpdate || backgroundChanged then [.imageRewrite] else []
    else [.imageCreate]
  else []

/-- SVG artifact write of one page body (part_001 lines 2084-2107):
written when absent, rewritten only when the page is new or modified. -/
def svgWritesFor (settings : ViwoodsSettings) (env : ExecEnv)
    (existingManifest : Option ImportManifest) (page : PageData) : List WriteKind :=
  let entry := existingManifest.bind fun m => lookupPage page.pageNum m.importedPages
  let isNew := entry.isNone
  let isModified := entry.map (·.imageHash) ≠ some page.image.hash
  if (settings.outputFormat = .svg ∨ settings.outputFormat = .both) ∧ page.stroke.isSome then
    if env.svgExists page.pageNum then
      if isNew || isModified then [.svgArtifact] else []
    else [.svgArtifact]
  else []

/-- Vault writes of one successful page body, in source order (part_001
lines 2010-2118): audio artifact, PNG artifact, SVG artifact, then the
page document, which is always rewritten from scratch. -/
def pageWrites (settings : ViwoodsSettings) (env : ExecEnv)
    (existingManifest : Option ImportManifest) (page : PageData) : List WriteKind :=
  audioWritesFor env existingManifest page ++
    imageWritesFor settings env existingManifest page ++
    svgWritesFor settings env existingManifest page ++ [.pageDoc]

/-- Body of one `batchPromises` task (part_001 lines 1953-2135): a
selected page number absent from the decoded book returns immediately;
otherwise the page is classified against `existingManifest` (lines
1962-1967), then either its body throws — the error is caught and
appended, nothing else happens — or all artifacts are written and the
manifest entry is replaced (line 2121). -/
def importPageStep (settings : ViwoodsSettings) (env : ExecEnv) (bookResult : BookResult)
    (existingManifest : Option ImportManifest) (st : ExecState) (pageNum : Nat) : ExecState :=
  match bookResult.pages.find? (fun p => p.pageNum == pageNum) with
  | none => st
  | some page =>
    let entry := existingManifest.bind fun m => lookupPage pageNum m.importedPages
    let isNew := entry.isNone
    let isModified := entry.map (·.imageHash) ≠ some page.image.hash
    let summary1 : ImportSummary :=
      if isNew then { st.summary with newPages := st.summary.newPages ++ [pageNum] }
      else if isModified then
        { st.summary with modifiedPages := st.summary.modifiedPages ++ [pageNum] }
      else { st.summary with unchangedPages := st.summary.unchangedPages ++ [pageNum] }
    match env.throws pageNum with
    | some msg =>
      { st with summary := { summary1 with errors := summary1.errors ++ [(pageNum, msg)] } }
    | none =>
      { summary := summary1
        manifestPages := setPage pageNum
          (mkUpdatedEntry settings env page (lookupPage pageNum st.manifestPages))
          st.manifestPages
        writes := st.writes ++
          (pageWrites settings env existingManifest page).map (fun k => (pageNum, k)) }

/-- The manifest a run works on (part_001 lines 1920-1928): the loaded
one, or a fresh empty manifest for a first import. -/
def freshManifest (bookResult : BookResult) (now : String) : ImportManifest :=
  { bookName := bookResult.bookName, totalPages := 0, importedPages := [],
    lastImport := now, sourceFile := bookResult.bookName, version := "1.1", history := [] }

/-- Source `importSelectedPagesWithProgress` (part_001 lines 1906-2164)
restricted to its observable outcome: the returned summary, the final
in-memory manifest, and the trace of vault writes.  The source splits
`pagesToImport` into consecutive batches and awaits each batch before
the next; every effect inside a batch is keyed by its own page number,
so the sequential left fold over the selection realises every
interleaving of the batched run.  After the loop a history entry is
appended; `saveManifest` itself is I/O and is counted separately. -/
def importSelectedPagesWithProgress (settings : ViwoodsSettings) (env : ExecEnv)
    (bookResult : BookResult) (pagesToImport : List Nat)
    (existingManifest : Option ImportManifest) :
    ImportSummary × ImportManifest × List (Nat × WriteKind) :=
  let manifest0 := existingManifest.getD (freshManifest bookResult env.now)
  let manifest1 := { manifest0 with
    totalPages := max manifest0.totalPages bookResult.pages.length }
  let summary0 : ImportSummary :=
    { totalPages := pagesToImport.length, newPages := [], modifiedPages := [],
      unchangedPages := [], deletedPages := [], errors := [] }
  let st0 : ExecState :=
    { summary := summary0, manifestPages := manifest1.importedPages, writes := [] }
  let stF := pagesToImport.foldl (importPageStep settings env bookResult existingManifest) st0
  let historyMessage := "Imported " ++ toString stF.summary.newPages.length ++ " new, " ++
    toString stF.summary.modifiedPages.length ++ " modified pages"
  let manifestF := addHistoryEntry settings env.now
    { manifest1 with importedPages := stF.manifestPages } "import" pagesToImport historyMessage
  (stF.summary, manifestF, stF.writes)

/-- Number of `saveManifest` calls made by `processWithGemini`
(part_001 lines 2244-2354): zero when the Gemini plugin is missing or
disabled (early returns at lines 2247-2256), otherwise exactly one,
after its page loop (line 2346). -/
def saveCallsProcessWithGemini (pluginOk : Bool) : Nat :=
  if pluginOk then 1 else 0

/-- Number of `saveManifest` calls made by one
`importSelectedPagesWithProgress` run (part_001 lines 1906-2164): the
batch loop (lines 1950-2142) performs none — the fold below adds zero
per selected page — one call follows at line 2156, and when Gemini
processing is enabled and pages were queued, `processWithGemini` runs
and adds its own calls (line 2160). -/
def saveCallsImportSelectedPages (pagesToImport : List Nat) (processGemini : Bool)
    (geminiQueueLen : Nat) (pluginOk : Bool) : Nat :=
  let loopCalls := pagesToImport.foldl (fun acc _ => acc) 0
  loopCalls + 1 +
    (if processGemini && geminiQueueLen > 0 then saveCallsProcessWithGemini pluginOk else 0)

/-- Number of `saveManifest` calls made by
`recoverManifestFromExistingFiles` (part_001 lines 1508-1587): one when
at least one page file was recovered (line 1578), zero otherwise. -/
def saveCallsRecoverManifest (recoveredPages : Nat) : Nat :=
  if recoveredPages > 0 then 1 else 0

/-- Number of `saveManifest` calls in one full `processNoteFile` run
(part_001 lines 1631-1701): recovery runs when no manifest loads but
the book folder exists; an empty selection returns before the
executor; otherwise the executor's calls follow. -/
def saveCallsProcessNoteFile (manifestLoaded bookFolderExists : Bool) (recoveredPages : Nat)
    (pagesToImport : List Nat) (processGemini : Bool) (geminiQueueLen : Nat)
    (pluginOk : Bool) : Nat :=
  (if !manifestLoaded && bookFolderExists then saveCallsRecoverManifest recoveredPages else 0) +
    (if pagesToImport.isEmpty then 0
     else saveCallsImportSelectedPages pagesToImport processGemini geminiQueueLen pluginOk)

/-- Concrete manifest entry used by witness runs. -/
def infoWithHash (h : String) : PageInfo :=
  { fileName := "Page 001.md", importDate := "2024-01-01", imageHash := h,
    geminiProcessed := false }

/-- Concrete decoded page used by witness runs. -/
def pageWith (n : Nat) (h : String) : PageData :=
  { pageNum := n, image := { size := 10, hash := h } }

/-- Concrete manifest used by witness runs. -/
def manifestWith (entries : List (Nat × PageInfo)) : ImportManifest :=
  { bookName := "B", totalPages := entries.length, importedPages := entries,
    lastImport := "2024-01-01", sourceFile := "B", version := "1.1", history := [] }

/-- Concrete decoded book used by witness runs. -/
def bookWith (pages : List PageData) : BookResult :=
  { bookName := "B", pages := pages }

/-- The decoded page selected for a given page number (source
`bookResult.pages.find(p => p.pageNum === pageNum)`, part_001 line
1954). -/
def foundPage (bookResult : BookResult) (pageNum : Nat) : Option PageData :=
  bookResult.pages.find? fun p => p.pageNum == pageNum

/-- The executor's own new/modified/unchanged classification of one
selected page (part_001 lines 1962-1967), computed from the manifest
loaded at the start of the run. -/
def execClassify (existingManifest : Option ImportManifest) (pageNum : Nat)
    (page : PageData) : ChangeType :=
  let entry := existingManifest.bind fun m => lookupPage pageNum m.importedPages
  if entry.isNone then .new
  else if entry.map (·.imageHash) ≠ some page.image.hash then .modified
  else .unchanged

/-- Summary contribution of one selected page: its classification
entry, recorded whether or not the body later throws. -/
def execPush (existingManifest : Option ImportManifest) (s : ImportSummary) (pageNum : Nat)
    (page : PageData) : ImportSummary :=
  match execClassify existingManifest pageNum page with
  | .new => { s with newPages := s.newPages ++ [pageNum] }
  | .modified => { s with modifiedPages := s.modifiedPages ++ [pageNum] }
  | _ => { s with unchangedPages := s.unchangedPages ++ [pageNum] }

/-- Concrete manifest entry with a recorded background colour, used by
witness runs. -/
def infoWithHashBg (h bg : String) : PageInfo :=
  { fileName := "Page 001.md", importDate := "2024-01-01", imageHash := h,
    geminiProcessed := false, backgroundColor := some bg }

/-- Concrete history entry used by witness runs. -/
def histEntry (d : String) : ImportHistory :=
  { date := d, action := "import", pages := [1], summary := "s" }

/-- Concrete settings used by witness runs. -/
def settingsA : ViwoodsSettings :=
  { outputFormat := .png, backgroundColor := "#FFFFFF", processWithGemini := false,
    keepHistory := true, maxHistoryEntries := 50 }

/-- Concrete executor environment used by witness runs. -/
def envWith (imgs : Nat → Bool) (t : Nat → Option String) : ExecEnv :=
  { imageExists := imgs, audioExists := fun _ => false, svgExists := fun _ => false,
    now := "2024-01-02", throws := t }

/-- The executor state at the start of the batch loop (part_001 lines
1920-1946): empty summary over the selection, the run manifest's page
map, no writes performed. -/
def initExecState (env : ExecEnv) (bookResult : BookResult) (pagesToImport : List Nat)
    (existingManifest : Option ImportManifest) : ExecState where
  summary :=
    { totalPages := pagesToImport.length, newPages := [], modifiedPages := [],
      unchangedPages := [], deletedPages := [], errors := [] }
  manifestPages := (existingManifest.getD (freshManifest bookResult env.now)).importedPages
  writes := []

theorem lookupPage_deletePage_ne {α : Type} (k j : Nat) (l : List (Nat × α)) (h : k ≠ j) :
    lookupPage k (deletePage j l) = lookupPage k l := by
  induction l with
  | nil => rfl
  | cons e es ih =>
    by_cases hej : e.1 = j
    · have hb : (e.1 != j) = false := by simp [hej]
      have hek : e.1 ≠ k := by rw [hej]; exact Ne.symm h
      simp [deletePage, List.filter_cons, hb, lookupPage, hek] at *
      exact ih
    · have hb : (e.1 != j) = true := by simpa using hej
      by_cases hek : e.1 = k
      · simp [deletePage, List.filter_cons, hb, lookupPage, hek, h]
      · simp [deletePage, List.filter_cons, hb, lookupPage, hek] at *
        exact ih

theorem deletePage_eq_of_lookup_none {α : Type} (k : Nat) (l : List (Nat × α))
    (h : lookupPage k l = none) : deletePage k l = l := by
  induction l with
  | nil => rfl
  | cons e es ih =>
    by_cases he : e.1 = k
    · simp [lookupPage, he] at h
    · have hb : (e.1 != k) = true := by simpa using he
      simp [lookupPage, he] at h
      simp [deletePage, List.filter_cons, hb] at *
      exact ih h

theorem lookupPage_setPage_self {α : Type} (k : Nat) (v : α) (l : List (Nat × α)) :
    lookupPage k (setPage k v l) = some v := by
  induction l with
  | nil => simp [setPage, lookupPage]
  | cons e es ih =>
    by_cases he : e.1 = k
    · simp [setPage, lookupPage, he]
    · simp [setPage, lookupPage, he, ih]

theorem lookupPage_setPage_ne {α : Type} (k j : Nat) (v : α) (l : List (Nat × α)) (h : k ≠ j) :
    lookupPage k (setPage j v l) = lookupPage k l := by
  have hjk : j ≠ k := Ne.symm h
  induction l with
  | nil => simp [setPage, lookupPage, hjk]
  | cons e es ih =>
    by_cases hej : e.1 = j
    · have hek : e.1 ≠ k := by rw [hej]; exact hjk
      simp [setPage, lookupPage, hej, hek, hjk]
    · simp [setPage, lookupPage, hej, ih]

theorem lookupPage_buildExistingMap (k : Nat) (m : ImportManifest)
    (fileHashes : Nat → Option String) :
    lookupPage k (buildExistingMap m fileHashes) =
      (lookupPage k m.importedPages).map
        (fun info => { manifestInfo := info, fileHash := fileHashes k }) := by
  unfold buildExistingMap
  induction m.importedPages with
  | nil => rfl
  | cons e es ih =>
    by_cases he : e.1 = k
    · subst he
      simp [lookupPage]
    · simp [lookupPage, he, ih]

theorem keys_buildExistingMap (m : ImportManifest) (fileHashes : Nat → Option String) :
    (buildExistingMap m fileHashes).map (·.1) = m.importedPages.map (·.1) := by
  simp [buildExistingMap]

theorem analyzeStep_spec (st : AnalyzeState) (p : PageData) :
    analyzeStep st p =
      { changes := st.changes ++ [changeOf st.existingMap p]
        summary :=
          { st.summary with
            newPages := st.summary.newPages ++
              (if classifyPage st.existingMap p = .new then [p.pageNum] else [])
            modifiedPages := st.summary.modifiedPages ++
              (if classifyPage st.existingMap p = .modified then [p.pageNum] else [])
            unchangedPages := st.summary.unchangedPages ++
              (if classifyPage st.existingMap p = .unchanged then [p.pageNum] else []) }
        existingMap := deletePage p.pageNum st.existingMap } := by
  unfold analyzeStep classifyPage changeOf
  cases hlk : lookupPage p.pageNum st.existingMap with
  | none =>
    simp [deletePage_eq_of_lookup_none _ _ hlk]
  | some e =>
    simp only [baselineOf, isSpecialHash]
    by_cases h1 : (jsStartsWith (jsOrString e.fileHash e.manifestInfo.imageHash) "recovered-" ||
        jsStartsWith (jsOrString e.fileHash e.manifestInfo.imageHash) "RESET-") = true
    · simp [h1]
    · rw [Bool.not_eq_true] at h1
      obtain ⟨hA, hB⟩ : jsStartsWith (jsOrString e.fileHash e.manifestInfo.imageHash)
          "recovered-" = false ∧
          jsStartsWith (jsOrString e.fileHash e.manifestInfo.imageHash) "RESET-" = false := by
        simpa using h1
      by_cases h2 : jsOrString e.fileHash e.manifestInfo.imageHash = p.image.hash
      · have hA' : jsStartsWith p.image.hash "recovered-" = false := h2 ▸ hA
        have hB' : jsStartsWith p.image.hash "RESET-" = false := h2 ▸ hB
        simp [h2, hA', hB']
      · simp [hA, hB, h2]

theorem classifyPage_deletePage_ne (m : List (Nat × ExistingEntry)) (q : PageData) (j : Nat)
    (h : q.pageNum ≠ j) : classifyPage (deletePage j m) q = classifyPage m q := by
  unfold classifyPage
  rw [lookupPage_deletePage_ne _ _ _ h]

theorem changeOf_deletePage_ne (m : List (Nat × ExistingEntry)) (q : PageData) (j : Nat)
    (h : q.pageNum ≠ j) : changeOf (deletePage j m) q = changeOf m q := by
  unfold changeOf
  rw [lookupPage_deletePage_ne _ _ _ h]

theorem analyzeLoop_spec (pages : List PageData) (st : AnalyzeState)
    (hnd : (pages.map PageData.pageNum).Nodup) :
    (pages.foldl analyzeStep st).changes
        = st.changes ++ pages.map (changeOf st.existingMap) ∧
    (pages.foldl analyzeStep st).summary.newPages
        = st.summary.newPages ++
          (pages.filter fun p => classifyPage st.existingMap p == ChangeType.new).map
            (·.pageNum) ∧
    (pages.foldl analyzeStep st).summary.modifiedPages
        = st.summary.modifiedPages ++
          (pages.filter fun p => classifyPage st.existingMap p == ChangeType.modified).map
            (·.pageNum) ∧
    (pages.foldl analyzeStep st).summary.unchangedPages
        = st.summary.unchangedPages ++
          (pages.filter fun p => classifyPage st.existingMap p == ChangeType.unchanged).map
            (·.pageNum) ∧
    (pages.foldl analyzeStep st).summary.deletedPages = st.summary.deletedPages ∧
    (pages.foldl analyzeStep st).summary.errors = st.summary.errors ∧
    (pages.foldl analyzeStep st).summary.totalPages = st.summary.totalPages ∧
    (pages.foldl analyzeStep st).existingMap
        = st.existingMap.filter fun e => !((pages.map PageData.pageNum).contains e.1) := by
  induction pages generalizing st with
  | nil => simp
  | cons p ps ih =>
    rw [List.map_cons, List.nodup_cons] at hnd
    obtain ⟨hp, hnd'⟩ := hnd
    have hne : ∀ q ∈ ps, q.pageNum ≠ p.pageNum := by
      intro q hq hcon
      exact hp (hcon ▸ List.mem_map_of_mem PageData.pageNum hq)
    have hstep := analyzeStep_spec st p
    have hs1c : (analyzeStep st p).changes = st.changes ++ [changeOf st.existingMap p] := by
      rw [hstep]
    have hs1n : (analyzeStep st p).summary.newPages = st.summary.newPages ++
        (if classifyPage st.existingMap p = .new then [p.pageNum] else []) := by rw [hstep]
    have hs1m : (analyzeStep st p).summary.modifiedPages = st.summary.modifiedPages ++
        (if classifyPage st.existingMap p = .modified then [p.pageNum] else []) := by rw [hstep]
    have hs1u : (analyzeStep st p).summary.unchangedPages = st.summary.unchangedPages ++
        (if classifyPage st.existingMap p = .unchanged then [p.pageNum] else []) := by
      rw [hstep]
    have hs1d : (analyzeStep st p).summary.deletedPages = st.summary.deletedPages := by
      rw [hstep]
    have hs1e : (analyzeStep st p).summary.errors = st.summary.errors := by rw [hstep]
    have hs1t : (analyzeStep st p).summary.totalPages = st.summary.totalPages := by rw [hstep]
    have hs1x : (analyzeStep st p).existingMap = deletePage p.pageNum st.existingMap := by
      rw [hstep]
    obtain ⟨hch, hnew, hmod, hunc, hdel, herr, htot, hmap⟩ := ih (analyzeStep st p) hnd'
    rw [List.foldl_cons]
    refine ⟨?_, ?_, ?_, ?_, ?_, ?_, ?_, ?_⟩
    · rw [hch, hs1c, hs1x,
        List.map_congr_left fun q hq => changeOf_deletePage_ne st.existingMap q p.pageNum
          (hne q hq)]
      simp
    · rw [hnew, hs1n, hs1x,
        List.filter_congr fun q hq => by
          rw [classifyPage_deletePage_ne st.existingMap q p.pageNum (hne q hq)]]
      cases hcl : classifyPage st.existingMap p <;> simp [hcl, List.filter_cons]
    · rw [hmod, hs1m, hs1x,
        List.filter_congr fun q hq => by
          rw [classifyPage_deletePage_ne st.existingMap q p.pageNum (hne q hq)]]
      cases hcl : classifyPage st.existingMap p <;> simp [hcl, List.filter_cons]
    · rw [hunc, hs1u, hs1x,
        List.filter_congr fun q hq => by
          rw [classifyPage_deletePage_ne st.existingMap q p.pageNum (hne q hq)]]
      cases hcl : classifyPage st.existingMap p <;> simp [hcl, List.filter_cons]
    · rw [hdel, hs1d]
    · rw [herr, hs1e]
    · rw [htot, hs1t]
    · rw [hmap, hs1x]
      unfold deletePage
      rw [List.filter_filter]
      refine List.filter_congr fun x hx => ?_
      by_cases hxp : x.1 = p.pageNum <;>
        simp [List.contains_cons, Bool.not_or, Bool.and_comm, bne, hxp]

theorem analyzeChanges_spec (book : BookResult) (m : ImportManifest)
    (fileHashes : Nat → Option String)
    (hnd : (book.pages.map PageData.pageNum).Nodup) :
    (analyzeChanges book (some m) fileHashes).2.newPages
        = (book.pages.filter fun p =>
            classifyPage (buildExistingMap m fileHashes) p == ChangeType.new).map
            (·.pageNum) ∧
    (analyzeChanges book (some m) fileHashes).2.modifiedPages
        = (book.pages.filter fun p =>
            classifyPage (buildExistingMap m fileHashes) p == ChangeType.modified).map
            (·.pageNum) ∧
    (analyzeChanges book (some m) fileHashes).2.unchangedPages
        = (book.pages.filter fun p =>
            classifyPage (buildExistingMap m fileHashes) p == ChangeType.unchanged).map
            (·.pageNum) ∧
    (analyzeChanges book (some m) fileHashes).2.deletedPages
        = ((buildExistingMap m fileHashes).filter fun e =>
            !((book.pages.map PageData.pageNum).contains e.1)).map (·.1) ∧
    (analyzeChanges book (some m) fileHashes).1
        = book.pages.map (changeOf (buildExistingMap m fileHashes)) ++
          ((buildExistingMap m fileHashes).filter fun e =>
            !((book.pages.map PageData.pageNum).contains e.1)).map (fun e =>
              { pageNum := e.1, type := .deleted, oldHash := some (baselineOf e.2) }) := by
  obtain ⟨hch, hnew, hmod, hunc, hdel, herr, htot, hmap⟩ :=
    analyzeLoop_spec book.pages
      { changes := []
        summary := { totalPages := book.pages.length, newPages := [], modifiedPages := [],
                     unchangedPages := [], deletedPages := [], errors := [] }
        existingMap := buildExistingMap m fileHashes } hnd
  unfold analyzeChanges
  simp only []
  refine ⟨?_, ?_, ?_, ?_, ?_⟩
  · simpa using hnew
  · simpa using hmod
  · simpa using hunc
  · rw [hdel] at *
    simp [hmap]
  · rw [hch, hmap]
    simp

/-- Claim C1: for every decoded page whose comparison baseline
fingerprint (the file-embedded hash if present and non-empty, otherwise
the manifest entry's `imageHash`) carries a `recovered-` or `RESET-`
prefix, `analyzeChanges` classifies the page as modified and never as
unchanged, regardless of whether the baseline equals the page's fresh
digest. -/
theorem analyzeChanges_sentinel_dominance (book : BookResult) (m : ImportManifest)
    (fileHashes : Nat → Option String) (p : PageData) (info : PageInfo)
    (hnd : (book.pages.map PageData.pageNum).Nodup)
    (hp : p ∈ book.pages)
    (hlk : lookupPage p.pageNum m.importedPages = some info)
    (hsent : jsStartsWith (jsOrString (fileHashes p.pageNum) info.imageHash) "recovered-" = true
      ∨ jsStartsWith (jsOrString (fileHashes p.pageNum) info.imageHash) "RESET-" = true) :
    p.pageNum ∈ (analyzeChanges book (some m) fileHashes).2.modifiedPages ∧
    p.pageNum ∉ (analyzeChanges book (some m) fileHashes).2.unchangedPages := by
  obtain ⟨hnew, hmod, hunc, hdel, hchg⟩ := analyzeChanges_spec book m fileHashes hnd
  have hlk' : lookupPage p.pageNum (buildExistingMap m fileHashes)
      = some { manifestInfo := info, fileHash := fileHashes p.pageNum } := by
    rw [lookupPage_buildExistingMap, hlk]
    rfl
  have hcl : classifyPage (buildExistingMap m fileHashes) p = .modified := by
    unfold classifyPage
    rw [hlk']
    have : isSpecialHash (baselineOf
        { manifestInfo := info, fileHash := fileHashes p.pageNum }) = true := by
      unfold isSpecialHash baselineOf
      rcases hsent with h | h <;> simp [h]
    simp [this]
  constructor
  · rw [hmod]
    exact List.mem_map_of_mem _ (List.mem_filter.mpr ⟨hp, by simp [hcl]⟩)
  · rw [hunc]
    intro hmem
    obtain ⟨q, hq, hqe⟩ := List.mem_map.mp hmem
    have hqf := List.mem_filter.mp hq
    have hqp : q = p := List.inj_on_of_nodup_map hnd hqf.1 hp hqe
    rw [hqp, hcl] at hqf
    simp at hqf

/-- Claim C3: for a page with a manifest entry, `analyzeChanges` takes
the fingerprint embedded in the page document (when the frontmatter
regex finds one — always a non-empty hex string) as the comparison
baseline instead of the manifest's `imageHash`: the classification and
the reported old hash depend only on the embedded value; the manifest
copy is the baseline only when no embedded fingerprint was found. -/
theorem analyzeChanges_prefers_embedded_hash (book : BookResult) (m : ImportManifest)
    (fileHashes : Nat → Option String) (p : PageData) (info : PageInfo)
    (hnd : (book.pages.map PageData.pageNum).Nodup)
    (hp : p ∈ book.pages)
    (hlk : lookupPage p.pageNum m.importedPages = some info) :
    (∀ h, fileHashes p.pageNum = some h → h ≠ "" →
      ((p.pageNum ∈ (analyzeChanges book (some m) fileHashes).2.unchangedPages ↔
          isSpecialHash h = false ∧ h = p.image.hash) ∧
        ∃ c ∈ (analyzeChanges book (some m) fileHashes).1,
          c.pageNum = p.pageNum ∧ c.oldHash = some h)) ∧
    (fileHashes p.pageNum = none →
      ((p.pageNum ∈ (analyzeChanges book (some m) fileHashes).2.unchangedPages ↔
          isSpecialHash info.imageHash = false ∧ info.imageHash = p.image.hash) ∧
        ∃ c ∈ (analyzeChanges book (some m) fileHashes).1,
          c.pageNum = p.pageNum ∧ c.oldHash = some info.imageHash)) := by
  obtain ⟨hnew, hmod, hunc, hdel, hchg⟩ := analyzeChanges_spec book m fileHashes hnd
  have hlk' : lookupPage p.pageNum (buildExistingMap m fileHashes)
      = some { manifestInfo := info, fileHash := fileHashes p.pageNum } := by
    rw [lookupPage_buildExistingMap, hlk]
    rfl
  have hmemunc : ∀ b : String,
      baselineOf { manifestInfo := info, fileHash := fileHashes p.pageNum } = b →
      (p.pageNum ∈ (analyzeChanges book (some m) fileHashes).2.unchangedPages ↔
        isSpecialHash b = false ∧ b = p.image.hash) := by
    intro b hb
    have hcl : classifyPage (buildExistingMap m fileHashes) p =
        (if isSpecialHash b then .modified
         else if b ≠ p.image.hash then .modified else .unchanged) := by
      unfold classifyPage
      rw [hlk']
      simp only []
      rw [hb]
    rw [hunc]
    constructor
    · intro hmem
      obtain ⟨q, hq, hqe⟩ := List.mem_map.mp hmem
      have hqf := List.mem_filter.mp hq
      have hqp : q = p := List.inj_on_of_nodup_map hnd hqf.1 hp hqe
      rw [hqp, hcl] at hqf
      by_cases h1 : isSpecialHash b = true
      · simp [h1] at hqf
      · rw [Bool.not_eq_true] at h1
        by_cases h2 : b = p.image.hash
        · exact ⟨h1, h2⟩
        · simp [h1, h2] at hqf
    · rintro ⟨h1, h2⟩
      refine List.mem_map_of_mem _ (List.mem_filter.mpr ⟨hp, ?_⟩)
      rw [hcl]
      have h1' : isSpecialHash p.image.hash = false := h2 ▸ h1
      simp [h1, h1', h2]
  have hmemchg : ∀ b : String,
      baselineOf { manifestInfo := info, fileHash := fileHashes p.pageNum } = b →
      ∃ c ∈ (analyzeChanges book (some m) fileHashes).1,
        c.pageNum = p.pageNum ∧ c.oldHash = some b := by
    intro b hb
    refine ⟨changeOf (buildExistingMap m fileHashes) p, ?_, ?_⟩
    · rw [hchg]
      exact List.mem_append_left _ (List.mem_map_of_mem _ hp)
    · unfold changeOf
      rw [hlk']
      simp only []
      rw [hb]
      refine ⟨?_, ?_⟩ <;> split <;> rfl
  constructor
  · intro h hh hne
    have hb : baselineOf { manifestInfo := info, fileHash := fileHashes p.pageNum } = h := by
      unfold baselineOf
      rw [hh]
      simp [jsOrString, hne]
    exact ⟨hmemunc h hb, hmemchg h hb⟩
  · intro hh
    have hb : baselineOf { manifestInfo := info, fileHash := fileHashes p.pageNum }
        = info.imageHash := by
      unfold baselineOf
      rw [hh]
      rfl
    exact ⟨hmemunc info.imageHash hb, hmemchg info.imageHash hb⟩

/-- Claim C4: with an existing manifest, every manifest page number
absent from the decoded book is classified deleted, and the
new/modified/unchanged classifications cover exactly the page numbers
of the decoded book. -/
theorem analyzeChanges_deletion_detection (book : BookResult) (m : ImportManifest)
    (fileHashes : Nat → Option String)
    (hnd : (book.pages.map PageData.pageNum).Nodup) :
    (∀ n : Nat,
      n ∈ (analyzeChanges book (some m) fileHashes).2.deletedPages ↔
        (n ∈ m.importedPages.map (·.1) ∧ n ∉ book.pages.map PageData.pageNum)) ∧
    (∀ n : Nat,
      (n ∈ (analyzeChanges book (some m) fileHashes).2.newPages ∨
       n ∈ (analyzeChanges book (some m) fileHashes).2.modifiedPages ∨
       n ∈ (analyzeChanges book (some m) fileHashes).2.unchangedPages) ↔
        n ∈ book.pages.map PageData.pageNum) := by
  obtain ⟨hnew, hmod, hunc, hdel, hchg⟩ := analyzeChanges_spec book m fileHashes hnd
  constructor
  · intro n
    rw [hdel]
    constructor
    · intro hmem
      obtain ⟨e, he, hee⟩ := List.mem_map.mp hmem
      have hef := List.mem_filter.mp he
      have hkey : e.1 ∈ (buildExistingMap m fileHashes).map (·.1) :=
        List.mem_map_of_mem _ hef.1
      rw [keys_buildExistingMap] at hkey
      refine ⟨hee ▸ hkey, ?_⟩
      intro hcon
      have hne := hef.2
      rw [hee] at hne
      simp at hne
      obtain ⟨q, hq, hqe⟩ := List.mem_map.mp hcon
      exact hne q hq hqe
    · rintro ⟨hin, hout⟩
      obtain ⟨e0, he0, hee0⟩ := List.mem_map.mp
        ((keys_buildExistingMap m fileHashes).symm ▸ hin)
      refine List.mem_map.mpr ⟨e0, List.mem_filter.mpr ⟨he0, ?_⟩, hee0⟩
      simp [hee0]
      intro q hq hqe
      exact hout (hqe ▸ List.mem_map_of_mem PageData.pageNum hq)
  · intro n
    rw [hnew, hmod, hunc]
    constructor
    · intro hmem
      rcases hmem with h | h | h <;>
      · obtain ⟨q, hq, hqe⟩ := List.mem_map.mp h
        exact hqe ▸ List.mem_map_of_mem _ (List.mem_filter.mp hq).1
    · intro hmem
      obtain ⟨q, hq, hqe⟩ := List.mem_map.mp hmem
      cases hcl : classifyPage (buildExistingMap m fileHashes) q with
      | new =>
        exact Or.inl (hqe ▸ List.mem_map_of_mem _ (List.mem_filter.mpr ⟨hq, by simp [hcl]⟩))
      | modified =>
        exact Or.inr (Or.inl
          (hqe ▸ List.mem_map_of_mem _ (List.mem_filter.mpr ⟨hq, by simp [hcl]⟩)))
      | unchanged =>
        exact Or.inr (Or.inr
          (hqe ▸ List.mem_map_of_mem _ (List.mem_filter.mpr ⟨hq, by simp [hcl]⟩)))
      | deleted =>
        exfalso
        unfold classifyPage at hcl
        rcases hlk : lookupPage q.pageNum (buildExistingMap m fileHashes) with _ | e <;>
          rw [hlk] at hcl
        · simp at hcl
        · by_cases h1 : isSpecialHash (baselineOf e) = true
          · simp [h1] at hcl
          · simp only [h1, if_false] at hcl
            by_cases h2 : baselineOf e = q.image.hash
            · simp [h2] at hcl
            · simp [h2] at hcl

/-- Witness for claim C1: a page whose manifest baseline is
`RESET-1700` is classified modified even though the decoded digest is
arbitrary. -/
theorem analyzeChanges_sentinel_dominance_witness :
    1 ∈ (analyzeChanges (bookWith [pageWith 1 "aaaa"])
        (some (manifestWith [(1, infoWithHash "RESET-1700")])) (fun _ => none)).2.modifiedPages
    ∧ 1 ∉ (analyzeChanges (bookWith [pageWith 1 "aaaa"])
        (some (manifestWith [(1, infoWithHash "RESET-1700")]))
        (fun _ => none)).2.unchangedPages := by
  exact analyzeChanges_sentinel_dominance (bookWith [pageWith 1 "aaaa"])
    (manifestWith [(1, infoWithHash "RESET-1700")]) (fun _ => none)
    (pageWith 1 "aaaa") (infoWithHash "RESET-1700")
    (by decide) (by decide) (by decide) (Or.inr (by decide))

/-- Witness for claim C3: the manifest says `bbbb` but the page file
embeds `aaaa`; since the decoded digest is `aaaa`, the page is
classified unchanged — the embedded fingerprint, not the manifest copy,
was the baseline. -/
theorem analyzeChanges_prefers_embedded_hash_witness :
    1 ∈ (analyzeChanges (bookWith [pageWith 1 "aaaa"])
        (some (manifestWith [(1, infoWithHash "bbbb")]))
        (fun n => if n = 1 then some "aaaa" else none)).2.unchangedPages := by
  exact ((analyzeChanges_prefers_embedded_hash (bookWith [pageWith 1 "aaaa"])
      (manifestWith [(1, infoWithHash "bbbb")])
      (fun n => if n = 1 then some "aaaa" else none)
      (pageWith 1 "aaaa") (infoWithHash "bbbb")
      (by decide) (by decide) (by decide)).1 "aaaa" (by decide)
      (by decide)).1.mpr ⟨by decide, rfl⟩

/-- Witness for claim C4: manifest pages {1,2,3} against a decoded book
{1,2} report page 3 deleted and page 2 among new/modified/unchanged. -/
theorem analyzeChanges_deletion_detection_witness :
    3 ∈ (analyzeChanges (bookWith [pageWith 1 "aaaa", pageWith 2 "bbbb"])
        (some (manifestWith [(1, infoWithHash "aaaa"), (2, infoWithHash "bbbb"),
          (3, infoWithHash "cccc")])) (fun _ => none)).2.deletedPages ∧
    (2 ∈ (analyzeChanges (bookWith [pageWith 1 "aaaa", pageWith 2 "bbbb"])
        (some (manifestWith [(1, infoWithHash "aaaa"), (2, infoWithHash "bbbb"),
          (3, infoWithHash "cccc")])) (fun _ => none)).2.newPages ∨
     2 ∈ (analyzeChanges (bookWith [pageWith 1 "aaaa", pageWith 2 "bbbb"])
        (some (manifestWith [(1, infoWithHash "aaaa"), (2, infoWithHash "bbbb"),
          (3, infoWithHash "cccc")])) (fun _ => none)).2.modifiedPages ∨
     2 ∈ (analyzeChanges (bookWith [pageWith 1 "aaaa", pageWith 2 "bbbb"])
        (some (manifestWith [(1, infoWithHash "aaaa"), (2, infoWithHash "bbbb"),
          (3, infoWithHash "cccc")])) (fun _ => none)).2.unchangedPages) := by
  refine ⟨((analyzeChanges_deletion_detection
      (bookWith [pageWith 1 "aaaa", pageWith 2 "bbbb"])
      (manifestWith [(1, infoWithHash "aaaa"), (2, infoWithHash "bbbb"),
        (3, infoWithHash "cccc")]) (fun _ => none) (by decide)).1 3).mpr (by decide), ?_⟩
  exact ((analyzeChanges_deletion_detection
      (bookWith [pageWith 1 "aaaa", pageWith 2 "bbbb"])
      (manifestWith [(1, infoWithHash "aaaa"), (2, infoWithHash "bbbb"),
        (3, infoWithHash "cccc")]) (fun _ => none) (by decide)).2 2).mpr (by decide)

theorem execClassify_ne_deleted (em : Option ImportManifest) (q : Nat) (page : PageData) :
    execClassify em q page ≠ ChangeType.deleted := by
  unfold execClassify
  cases he : em.bind fun m => lookupPage q m.importedPages with
  | none => simp [he]
  | some info =>
    by_cases h2 : info.imageHash = page.image.hash
    · simp [he, h2]
    · simp [he, h2]

theorem execPush_spec (em : Option ImportManifest) (s : ImportSummary) (q : Nat)
    (page : PageData) :
    (execPush em s q page).errors = s.errors ∧
    (execPush em s q page).deletedPages = s.deletedPages ∧
    (execPush em s q page).totalPages = s.totalPages ∧
    (execPush em s q page).newPages = s.newPages ++
      (if execClassify em q page = .new then [q] else []) ∧
    (execPush em s q page).modifiedPages = s.modifiedPages ++
      (if execClassify em q page = .modified then [q] else []) ∧
    (execPush em s q page).unchangedPages = s.unchangedPages ++
      (if execClassify em q page = .unchanged then [q] else []) := by
  unfold execPush
  cases hcl : execClassify em q page with
  | new => simp
  | modified => simp
  | unchanged => simp
  | deleted => exact absurd hcl (execClassify_ne_deleted em q page)

theorem importPageStep_spec (settings : ViwoodsSettings) (env : ExecEnv) (book : BookResult)
    (em : Option ImportManifest) (st : ExecState) (q : Nat) :
    importPageStep settings env book em st q =
      match foundPage book q with
      | none => st
      | some page =>
        match env.throws q with
        | some msg =>
          { st with summary :=
            { execPush em st.summary q page with
              errors := (execPush em st.summary q page).errors ++ [(q, msg)] } }
        | none =>
          { summary := execPush em st.summary q page
            manifestPages := setPage q
              (mkUpdatedEntry settings env page (lookupPage q st.manifestPages))
              st.manifestPages
            writes := st.writes ++
              (pageWrites settings env em page).map (fun k => (q, k)) } := by
  unfold importPageStep foundPage execPush execClassify
  cases hf : book.pages.find? (fun p => p.pageNum == q) with
  | none => rfl
  | some page =>
    simp only []
    cases ht : env.throws q with
    | some msg =>
      cases he : em.bind fun m => lookupPage q m.importedPages with
      | none => simp [he]
      | some info =>
        by_cases h2 : info.imageHash = page.image.hash
        · simp [he, h2]
        · simp [he, h2]
    | none =>
      cases he : em.bind fun m => lookupPage q m.importedPages with
      | none => simp [he]
      | some info =>
        by_cases h2 : info.imageHash = page.image.hash
        · simp [he, h2]
        · simp [he, h2]

theorem importLoop_summary_spec (settings : ViwoodsSettings) (env : ExecEnv)
    (book : BookResult) (em : Option ImportManifest) (pages : List Nat) (st : ExecState) :
    (pages.foldl (importPageStep settings env book em) st).summary.errors
        = st.summary.errors ++ pages.filterMap (fun q =>
            match foundPage book q, env.throws q with
            | some _, some msg => some (q, msg)
            | _, _ => none) ∧
    (pages.foldl (importPageStep settings env book em) st).summary.newPages
        = st.summary.newPages ++ pages.filterMap (fun q =>
            match foundPage book q with
            | some page => if execClassify em q page = .new then some q else none
            | none => none) ∧
    (pages.foldl (importPageStep settings env book em) st).summary.modifiedPages
        = st.summary.modifiedPages ++ pages.filterMap (fun q =>
            match foundPage book q with
            | some page => if execClassify em q page = .modified then some q else none
            | none => none) ∧
    (pages.foldl (importPageStep settings env book em) st).summary.unchangedPages
        = st.summary.unchangedPages ++ pages.filterMap (fun q =>
            match foundPage book q with
            | some page => if execClassify em q page = .unchanged then some q else none
            | none => none) ∧
    (pages.foldl (importPageStep settings env book em) st).summary.deletedPages
        = st.summary.deletedPages ∧
    (pages.foldl (importPageStep settings env book em) st).summary.totalPages
        = st.summary.totalPages ∧
    (pages.foldl (importPageStep settings env book em) st).writes
        = st.writes ++ pages.flatMap (fun q =>
            match foundPage book q, env.throws q with
            | some page, none => (pageWrites settings env em page).map (fun k => (q, k))
            | _, _ => []) := by
  induction pages generalizing st with
  | nil => simp
  | cons q qs ih =>
    rw [List.foldl_cons]
    cases hf : foundPage book q with
    | none =>
      have hstep : importPageStep settings env book em st q = st := by
        rw [importPageStep_spec, hf]
      rw [hstep]
      obtain ⟨iherr, ihnew, ihmod, ihunc, ihdel, ihtot, ihw⟩ := ih st
      refine ⟨?_, ?_, ?_, ?_, ?_, ?_, ?_⟩
      · rw [iherr]
        simp [List.filterMap_cons, hf]
      · rw [ihnew]
        simp [List.filterMap_cons, hf]
      · rw [ihmod]
        simp [List.filterMap_cons, hf]
      · rw [ihunc]
        simp [List.filterMap_cons, hf]
      · rw [ihdel]
      · rw [ihtot]
      · rw [ihw]
        simp [List.flatMap_cons, hf]
    | some page =>
      obtain ⟨qerr, qdel, qtot, qnew, qmod, qunc⟩ := execPush_spec em st.summary q page
      cases ht : env.throws q with
      | some msg =>
        have hstep : importPageStep settings env book em st q =
            { st with summary :=
              { execPush em st.summary q page with
                errors := (execPush em st.summary q page).errors ++ [(q, msg)] } } := by
          rw [importPageStep_spec, hf, ht]
        rw [hstep]
        obtain ⟨iherr, ihnew, ihmod, ihunc, ihdel, ihtot, ihw⟩ :=
          ih { st with summary :=
            { execPush em st.summary q page with
              errors := (execPush em st.summary q page).errors ++ [(q, msg)] } }
        refine ⟨?_, ?_, ?_, ?_, ?_, ?_, ?_⟩
        · rw [iherr]
          simp [List.filterMap_cons, hf, ht, qerr]
        · rw [ihnew]
          simp [List.filterMap_cons, hf, ht, qnew]
          by_cases hc : execClassify em q page = ChangeType.new <;> simp [hc]
        · rw [ihmod]
          simp [List.filterMap_cons, hf, ht, qmod]
          by_cases hc : execClassify em q page = ChangeType.modified <;> simp [hc]
        · rw [ihunc]
          simp [List.filterMap_cons, hf, ht, qunc]
          by_cases hc : execClassify em q page = ChangeType.unchanged <;> simp [hc]
        · rw [ihdel]
          simp [qdel]
        · rw [ihtot]
          simp [qtot]
        · rw [ihw]
          simp [List.flatMap_cons, hf, ht]
      | none =>
        have hstep : importPageStep settings env book em st q =
            { summary := execPush em st.summary q page
              manifestPages := setPage q
                (mkUpdatedEntry settings env page (lookupPage q st.manifestPages))
                st.manifestPages
              writes := st.writes ++
                (pageWrites settings env em page).map (fun k => (q, k)) } := by
          rw [importPageStep_spec, hf, ht]
        rw [hstep]
        obtain ⟨iherr, ihnew, ihmod, ihunc, ihdel, ihtot, ihw⟩ :=
          ih { summary := execPush em st.summary q page
               manifestPages := setPage q
                 (mkUpdatedEntry settings env page (lookupPage q st.manifestPages))
                 st.manifestPages
               writes := st.writes ++
                 (pageWrites settings env em page).map (fun k => (q, k)) }
        refine ⟨?_, ?_, ?_, ?_, ?_, ?_, ?_⟩
        · rw [iherr]
          simp [List.filterMap_cons, hf, ht, qerr]
        · rw [ihnew]
          simp [List.filterMap_cons, hf, ht, qnew]
          by_cases hc : execClassify em q page = ChangeType.new <;> simp [hc]
        · rw [ihmod]
          simp [List.filterMap_cons, hf, ht, qmod]
          by_cases hc : execClassify em q page = ChangeType.modified <;> simp [hc]
        · rw [ihunc]
          simp [List.filterMap_cons, hf, ht, qunc]
          by_cases hc : execClassify em q page = ChangeType.unchanged <;> simp [hc]
        · rw [ihdel]
          simp [qdel]
        · rw [ihtot]
          simp [qtot]
        · rw [ihw]
          simp [List.flatMap_cons, hf, ht]

theorem importPageStep_lookup_ne (settings : ViwoodsSettings) (env : ExecEnv)
    (book : BookResult) (em : Option ImportManifest) (st : ExecState) (q p : Nat)
    (h : p ≠ q) :
    lookupPage p (importPageStep settings env book em st q).manifestPages
      = lookupPage p st.manifestPages := by
  rw [importPageStep_spec]
  cases hf : foundPage book q with
  | none => rfl
  | some page =>
    cases ht : env.throws q with
    | some msg => rfl
    | none =>
      simp only []
      exact lookupPage_setPage_ne p q _ st.manifestPages h

theorem importLoop_lookup_not_selected (settings : ViwoodsSettings) (env : ExecEnv)
    (book : BookResult) (em : Option ImportManifest) (pages : List Nat) (st : ExecState)
    (p : Nat) (hp : p ∉ pages) :
    lookupPage p (pages.foldl (importPageStep settings env book em) st).manifestPages
      = lookupPage p st.manifestPages := by
  induction pages generalizing st with
  | nil => rfl
  | cons q qs ih =>
    rw [List.mem_cons, not_or] at hp
    rw [List.foldl_cons, ih _ hp.2,
      importPageStep_lookup_ne settings env book em st q p hp.1]

theorem importLoop_lookup_no_update (settings : ViwoodsSettings) (env : ExecEnv)
    (book : BookResult) (em : Option ImportManifest) (pages : List Nat) (st : ExecState)
    (p : Nat) (h : foundPage book p = none ∨ env.throws p ≠ none) :
    lookupPage p (pages.foldl (importPageStep settings env book em) st).manifestPages
      = lookupPage p st.manifestPages := by
  induction pages generalizing st with
  | nil => rfl
  | cons q qs ih =>
    rw [List.foldl_cons, ih]
    by_cases hpq : p = q
    · subst hpq
      rw [importPageStep_spec]
      rcases h with h | h
      · rw [h]
      · cases hf : foundPage book p
        · rfl
        · cases ht : env.throws p
          · exact absurd ht h
          · rfl
    · exact importPageStep_lookup_ne settings env book em st q p hpq

theorem importLoop_lookup_updated (settings : ViwoodsSettings) (env : ExecEnv)
    (book : BookResult) (em : Option ImportManifest) (pages : List Nat) (st : ExecState)
    (p : Nat) (page : PageData)
    (hnd : pages.Nodup) (hp : p ∈ pages)
    (hf : foundPage book p = some page) (ht : env.throws p = none) :
    lookupPage p (pages.foldl (importPageStep settings env book em) st).manifestPages
      = some (mkUpdatedEntry settings env page (lookupPage p st.manifestPages)) := by
  induction pages generalizing st with
  | nil => exact absurd hp (List.not_mem_nil p)
  | cons q qs ih =>
    rw [List.nodup_cons] at hnd
    rw [List.foldl_cons]
    rcases List.mem_cons.mp hp with hq | hq
    · subst hq
      rw [importLoop_lookup_not_selected settings env book em qs _ p hnd.1,
        importPageStep_spec, hf, ht]
      simp only []
      exact lookupPage_setPage_self p _ st.manifestPages
    · by_cases hpq : p = q
      · subst hpq
        exact absurd hq hnd.1
      · rw [ih _ hnd.2 hq,
          importPageStep_lookup_ne settings env book em st q p hpq]

theorem addHistoryEntry_keeps_pages (settings : ViwoodsSettings) (now : String)
    (manifest : ImportManifest) (action : String) (pgs : List Nat) (txt : String) :
    (addHistoryEntry settings now manifest action pgs txt).totalPages = manifest.totalPages ∧
    (addHistoryEntry settings now manifest action pgs txt).importedPages
      = manifest.importedPages := by
  constructor <;> (unfold addHistoryEntry; split <;> rfl)

theorem importRun_spec (settings : ViwoodsSettings) (env : ExecEnv) (book : BookResult)
    (pages : List Nat) (em : Option ImportManifest) :
    (importSelectedPagesWithProgress settings env book pages em).1
        = (pages.foldl (importPageStep settings env book em)
            (initExecState env book pages em)).summary ∧
    (importSelectedPagesWithProgress settings env book pages em).2.1.importedPages
        = (pages.foldl (importPageStep settings env book em)
            (initExecState env book pages em)).manifestPages ∧
    (importSelectedPagesWithProgress settings env book pages em).2.1.totalPages
        = max (em.getD (freshManifest book env.now)).totalPages book.pages.length ∧
    (importSelectedPagesWithProgress settings env book pages em).2.2
        = (pages.foldl (importPageStep settings env book em)
            (initExecState env book pages em)).writes := by
  unfold importSelectedPagesWithProgress initExecState
  refine ⟨rfl, ?_, ?_, rfl⟩
  · rw [(addHistoryEntry_keeps_pages _ _ _ _ _ _).2]
  · rw [(addHistoryEntry_keeps_pages _ _ _ _ _ _).1]

/-- Claim C9: the executor sets the manifest's `totalPages` to the
maximum of its previous value (0 for a fresh manifest) and the decoded
book's page count, so it never decreases across runs. -/
theorem importRun_totalPages_monotone (settings : ViwoodsSettings) (env : ExecEnv)
    (book : BookResult) (pages : List Nat) (em : Option ImportManifest) :
    (importSelectedPagesWithProgress settings env book pages em).2.1.totalPages
        = max (em.getD (freshManifest book env.now)).totalPages book.pages.length ∧
    (em.getD (freshManifest book env.now)).totalPages
        ≤ (importSelectedPagesWithProgress settings env book pages em).2.1.totalPages := by
  obtain ⟨-, -, htot, -⟩ := importRun_spec settings env book pages em
  exact ⟨htot, htot ▸ Nat.le_max_left _ _⟩

/-- Claim C7: with history keeping enabled, appending to a history that
already holds at least `maxHistoryEntries` entries leaves exactly
`maxHistoryEntries` entries: the new entry in front followed by the
newest old entries, the oldest dropped. -/
theorem addHistoryEntry_cap (settings : ViwoodsSettings) (now : String)
    (manifest : ImportManifest) (action : String) (pgs : List Nat) (txt : String)
    (hk : settings.keepHistory = true)
    (hlen : settings.maxHistoryEntries ≤ manifest.history.length) :
    (addHistoryEntry settings now manifest action pgs txt).history
        = ({ date := now, action := action, pages := pgs, summary := txt : ImportHistory }
            :: manifest.history).take settings.maxHistoryEntries ∧
    (addHistoryEntry settings now manifest action pgs txt).history.length
        = settings.maxHistoryEntries := by
  have hgt : ({ date := now, action := action, pages := pgs, summary := txt : ImportHistory }
      :: manifest.history).length > settings.maxHistoryEntries := by
    simp only [List.length_cons]
    omega
  constructor
  · unfold addHistoryEntry
    simp only [hk, Bool.not_true, Bool.false_eq_true, if_false, if_pos hgt]
  · unfold addHistoryEntry
    simp only [hk, Bool.not_true, Bool.false_eq_true, if_false, if_pos hgt]
    rw [List.length_take]
    simp only [List.length_cons]
    omega

/-- Witness for claim C7: cap 2, two old entries, appending keeps
exactly the newest two entries. -/
theorem addHistoryEntry_cap_witness :
    (addHistoryEntry { settingsA with maxHistoryEntries := 2 } "2024-02-02"
        { manifestWith [] with history := [histEntry "a", histEntry "b"] }
        "import" [1] "t").history
      = ({ date := "2024-02-02", action := "import", pages := [1],
           summary := "t" : ImportHistory } :: [histEntry "a", histEntry "b"]).take 2 ∧
    (addHistoryEntry { settingsA with maxHistoryEntries := 2 } "2024-02-02"
        { manifestWith [] with history := [histEntry "a", histEntry "b"] }
        "import" [1] "t").history.length = 2 := by
  exact addHistoryEntry_cap { settingsA with maxHistoryEntries := 2 } "2024-02-02"
    { manifestWith [] with history := [histEntry "a", histEntry "b"] } "import" [1] "t"
    (by decide) (by decide)

theorem saveLoop_zero (pages : List Nat) :
    pages.foldl (fun acc (_ : Nat) => acc) 0 = 0 := by
  induction pages with
  | nil => rfl
  | cons q qs ih => exact ih

/-- Counterexample to claim C5: a run with Gemini processing enabled,
one queued page and the plugin available calls `saveManifest` twice —
once at the end of the batch phase (line 2156) and once at the end of
`processWithGemini` (line 2346) — not exactly once. -/
theorem saveManifest_not_once_counterexample :
    saveCallsProcessNoteFile true false 0 [1] true 1 true = 2 ∧ (2 : Nat) ≠ 1 := by
  constructor
  · rfl
  · decide

/-- Claim C5 (amended): the batch loop never persists the manifest per
page; `importSelectedPagesWithProgress` persists exactly once after all
batches plus, when Gemini processing is enabled with queued pages and
an available plugin, one more save inside `processWithGemini`; a full
run additionally saves once during manifest recovery.  With Gemini
disabled, a run persists the manifest exactly once (apart from any
recovery save) when the selection is non-empty. -/
theorem saveManifest_call_count (manifestLoaded folderExists : Bool) (recoveredPages : Nat)
    (pages : List Nat) (processGemini : Bool) (queueLen : Nat) (pluginOk : Bool) :
    saveCallsImportSelectedPages pages processGemini queueLen pluginOk
        = 1 + (if processGemini && queueLen > 0 then (if pluginOk then 1 else 0) else 0) ∧
    (processGemini = false →
      saveCallsProcessNoteFile manifestLoaded folderExists recoveredPages pages false
          queueLen pluginOk
        = (if !manifestLoaded && folderExists && recoveredPages > 0 then 1 else 0)
          + (if pages.isEmpty then 0 else 1)) := by
  constructor
  · unfold saveCallsImportSelectedPages saveCallsProcessWithGemini
    simp [saveLoop_zero]
  · intro hg
    unfold saveCallsProcessNoteFile saveCallsRecoverManifest saveCallsImportSelectedPages
      saveCallsProcessWithGemini
    by_cases h1 : manifestLoaded
    · simp [h1, saveLoop_zero]
    · by_cases h2 : folderExists
      · by_cases h3 : recoveredPages > 0 <;> simp [h1, h2, h3, saveLoop_zero]
      · simp [h1, h2, saveLoop_zero]

/-- Witness for claim C5 (amended): with Gemini disabled, a recovery-free
run over a two-page selection saves the manifest exactly once. -/
theorem saveManifest_call_count_witness :
    saveCallsImportSelectedPages [1, 2] false 0 true = 1 ∧
    saveCallsProcessNoteFile true false 0 [1, 2] false 0 true = 1 := by
  refine ⟨?_, ?_⟩
  · exact (saveManifest_call_count true false 0 [1, 2] false 0 true).1
  · exact (saveManifest_call_count true false 0 [1, 2] false 0 true).2 rfl

theorem importLoop_writes_mem (settings : ViwoodsSettings) (env : ExecEnv)
    (book : BookResult) (em : Option ImportManifest) (pages : List Nat) (st : ExecState)
    (p : Nat) (k : WriteKind) :
    ((p, k) ∈ (pages.foldl (importPageStep settings env book em) st).writes ↔
      (p, k) ∈ st.writes ∨ (p ∈ pages ∧ ∃ pg, foundPage book p = some pg ∧
        env.throws p = none ∧ k ∈ pageWrites settings env em pg)) := by
  obtain ⟨-, -, -, -, -, -, hw⟩ := importLoop_summary_spec settings env book em pages st
  rw [hw, List.mem_append, List.mem_flatMap]
  apply or_congr Iff.rfl
  constructor
  · rintro ⟨q, hq, hmem⟩
    rcases hfq : foundPage book q with _ | pg <;> rw [hfq] at hmem
    · simp at hmem
    · rcases htq : env.throws q with _ | msg <;> rw [htq] at hmem
      · obtain ⟨k', hk', hke⟩ := List.mem_map.mp hmem
        have hqp : q = p := congrArg Prod.fst hke
        have hkk : k' = k := congrArg Prod.snd hke
        subst hqp
        subst hkk
        exact ⟨hq, pg, hfq, htq, hk'⟩
      · simp at hmem
  · rintro ⟨hp, pg, hfp, htp, hk⟩
    refine ⟨p, hp, ?_⟩
    rw [hfp, htp]
    exact List.mem_map_of_mem _ hk

theorem mem_classFilter_found (book : BookResult) (em : Option ImportManifest)
    (pages : List Nat) (t : ChangeType) (n : Nat)
    (h : n ∈ pages.filterMap (fun q =>
      match foundPage book q with
      | some page => if execClassify em q page = t then some q else none
      | none => none)) :
    n ∈ pages ∧ ∃ pg, foundPage book n = some pg := by
  obtain ⟨q, hq, hfe⟩ := List.mem_filterMap.mp h
  rcases hfq : foundPage book q with _ | pg <;> rw [hfq] at hfe
  · simp at hfe
  · simp only [] at hfe
    by_cases hc : execClassify em q pg = t
    · rw [if_pos hc] at hfe
      obtain rfl : q = n := Option.some_inj.mp hfe
      exact ⟨hq, pg, hfq⟩
    · rw [if_neg hc] at hfe
      simp at hfe

theorem mem_errFilter_found (book : BookResult) (env : ExecEnv) (pages : List Nat)
    (p : Nat) (msg : String)
    (h : (p, msg) ∈ pages.filterMap (fun q =>
      match foundPage book q, env.throws q with
      | some _, some m => some (q, m)
      | _, _ => none)) :
    p ∈ pages ∧ ∃ pg, foundPage book p = some pg := by
  obtain ⟨q, hq, hfe⟩ := List.mem_filterMap.mp h
  rcases hfq : foundPage book q with _ | pg <;> rw [hfq] at hfe
  · simp at hfe
  · rcases htq : env.throws q with _ | m <;> rw [htq] at hfe
    · simp at hfe
    · simp only [] at hfe
      have hqp : q = p := congrArg Prod.fst (Option.some_inj.mp hfe)
      subst hqp
      exact ⟨hq, pg, hfq⟩

/-- Claim C2: a run in which one selected page's body throws still
completes and returns a summary; the failing page is recorded in the
error list as its page number with the message, its manifest entry is
left exactly as in the run's input manifest, and every other selected
page present in the decoded book whose body does not throw is processed
and gets its manifest entry replaced with the freshly imported record.
(Completion is inherent: the embedded run is a total function.) -/
theorem importRun_partial_failure_isolation (settings : ViwoodsSettings) (env : ExecEnv)
    (book : BookResult) (pages : List Nat) (em : Option ImportManifest)
    (p : Nat) (msg : String) (page : PageData)
    (hnd : pages.Nodup) (hp : p ∈ pages)
    (hf : foundPage book p = some page) (ht : env.throws p = some msg) :
    (p, msg) ∈ (importSelectedPagesWithProgress settings env book pages em).1.errors ∧
    lookupPage p
        (importSelectedPagesWithProgress settings env book pages em).2.1.importedPages
      = lookupPage p (em.getD (freshManifest book env.now)).importedPages ∧
    ∀ q ∈ pages, q ≠ p → ∀ pq, foundPage book q = some pq → env.throws q = none →
      lookupPage q
          (importSelectedPagesWithProgress settings env book pages em).2.1.importedPages
        = some (mkUpdatedEntry settings env pq
            (lookupPage q (em.getD (freshManifest book env.now)).importedPages)) := by
  obtain ⟨hsum, hman, -, -⟩ := importRun_spec settings env book pages em
  obtain ⟨herr, -, -, -, -, -, -⟩ :=
    importLoop_summary_spec settings env book em pages (initExecState env book pages em)
  refine ⟨?_, ?_, ?_⟩
  · rw [hsum, herr]
    refine List.mem_append.mpr (Or.inr ?_)
    refine List.mem_filterMap.mpr ⟨p, hp, ?_⟩
    rw [hf, ht]
  · rw [hman,
      importLoop_lookup_no_update settings env book em pages _ p (Or.inr (by simp [ht]))]
    rfl
  · intro q hq hqp pq hfq htq
    rw [hman, importLoop_lookup_updated settings env book em pages _ q pq hnd hq hfq htq]
    rfl

/-- Witness for claim C2: selecting pages 1 and 2 where page 1's body
throws "boom": the error is reported for page 1, page 1 has no manifest
entry afterwards (fresh manifest run), and page 2's entry is the newly
imported record. -/
theorem importRun_partial_failure_isolation_witness :
    (1, "boom") ∈ (importSelectedPagesWithProgress settingsA
        (envWith (fun _ => false) (fun n => if n = 1 then some "boom" else none))
        (bookWith [pageWith 1 "aaaa", pageWith 2 "bbbb"]) [1, 2] none).1.errors ∧
    lookupPage 1 (importSelectedPagesWithProgress settingsA
        (envWith (fun _ => false) (fun n => if n = 1 then some "boom" else none))
        (bookWith [pageWith 1 "aaaa", pageWith 2 "bbbb"]) [1, 2] none).2.1.importedPages
      = none ∧
    lookupPage 2 (importSelectedPagesWithProgress settingsA
        (envWith (fun _ => false) (fun n => if n = 1 then some "boom" else none))
        (bookWith [pageWith 1 "aaaa", pageWith 2 "bbbb"]) [1, 2] none).2.1.importedPages
      = some (mkUpdatedEntry settingsA
          (envWith (fun _ => false) (fun n => if n = 1 then some "boom" else none))
          (pageWith 2 "bbbb") none) := by
  have h := importRun_partial_failure_isolation settingsA
    (envWith (fun _ => false) (fun n => if n = 1 then some "boom" else none))
    (bookWith [pageWith 1 "aaaa", pageWith 2 "bbbb"]) [1, 2] none 1 "boom"
    (pageWith 1 "aaaa") (by decide) (by decide) (by decide) (by decide)
  exact ⟨h.1, h.2.1, h.2.2 2 (by decide) (by decide) (pageWith 2 "bbbb")
    (by decide) (by decide)⟩

/-- Claim C10: a selected page number with no corresponding decoded
page is silently skipped: it appears in none of the summary's
classification lists nor in the error list, its manifest entry is
untouched, and no artifact or page-document write is performed for
it. -/
theorem importRun_skips_absent_pages (settings : ViwoodsSettings) (env : ExecEnv)
    (book : BookResult) (pages : List Nat) (em : Option ImportManifest) (p : Nat)
    (hp : p ∈ pages) (hf : foundPage book p = none) :
    p ∉ (importSelectedPagesWithProgress settings env book pages em).1.newPages ∧
    p ∉ (importSelectedPagesWithProgress settings env book pages em).1.modifiedPages ∧
    p ∉ (importSelectedPagesWithProgress settings env book pages em).1.unchangedPages ∧
    p ∉ (importSelectedPagesWithProgress settings env book pages em).1.deletedPages ∧
    (∀ msg, (p, msg) ∉ (importSelectedPagesWithProgress settings env book pages em).1.errors) ∧
    lookupPage p
        (importSelectedPagesWithProgress settings env book pages em).2.1.importedPages
      = lookupPage p (em.getD (freshManifest book env.now)).importedPages ∧
    ∀ k, (p, k) ∉ (importSelectedPagesWithProgress settings env book pages em).2.2 := by
  obtain ⟨hsum, hman, -, hwr⟩ := importRun_spec settings env book pages em
  obtain ⟨herr, hnew, hmod, hunc, hdel, -, -⟩ :=
    importLoop_summary_spec settings env book em pages (initExecState env book pages em)
  refine ⟨?_, ?_, ?_, ?_, ?_, ?_, ?_⟩
  · rw [hsum, hnew]
    intro hmem
    rcases List.mem_append.mp hmem with h | h
    · simp [initExecState] at h
    · obtain ⟨-, pg, hpg⟩ := mem_classFilter_found book em pages ChangeType.new p h
      rw [hf] at hpg
      cases hpg
  · rw [hsum, hmod]
    intro hmem
    rcases List.mem_append.mp hmem with h | h
    · simp [initExecState] at h
    · obtain ⟨-, pg, hpg⟩ := mem_classFilter_found book em pages ChangeType.modified p h
      rw [hf] at hpg
      cases hpg
  · rw [hsum, hunc]
    intro hmem
    rcases List.mem_append.mp hmem with h | h
    · simp [initExecState] at h
    · obtain ⟨-, pg, hpg⟩ := mem_classFilter_found book em pages ChangeType.unchanged p h
      rw [hf] at hpg
      cases hpg
  · rw [hsum, hdel]
    simp [initExecState]
  · intro msg
    rw [hsum, herr]
    intro hmem
    rcases List.mem_append.mp hmem with h | h
    · simp [initExecState] at h
    · obtain ⟨-, pg, hpg⟩ := mem_errFilter_found book env pages p msg h
      rw [hf] at hpg
      cases hpg
  · rw [hman, importLoop_lookup_no_update settings env book em pages _ p (Or.inl hf)]
    rfl
  · intro k
    rw [hwr]
    intro hmem
    rcases (importLoop_writes_mem settings env book em pages _ p k).mp hmem with h | h
    · simp [initExecState] at h
    · obtain ⟨-, pg, hpg, -, -⟩ := h
      rw [hf] at hpg
      cases hpg

/-- Witness for claim C10: selecting pages 1 and 5 of a one-page book —
page 5 does not exist and leaves no trace in the run's output. -/
theorem importRun_skips_absent_pages_witness :
    5 ∉ (importSelectedPagesWithProgress settingsA (envWith (fun _ => false) (fun _ => none))
        (bookWith [pageWith 1 "aaaa"]) [1, 5] none).1.newPages ∧
    5 ∉ (importSelectedPagesWithProgress settingsA (envWith (fun _ => false) (fun _ => none))
        (bookWith [pageWith 1 "aaaa"]) [1, 5] none).1.modifiedPages ∧
    5 ∉ (importSelectedPagesWithProgress settingsA (envWith (fun _ => false) (fun _ => none))
        (bookWith [pageWith 1 "aaaa"]) [1, 5] none).1.unchangedPages ∧
    5 ∉ (importSelectedPagesWithProgress settingsA (envWith (fun _ => false) (fun _ => none))
        (bookWith [pageWith 1 "aaaa"]) [1, 5] none).1.deletedPages ∧
    (5, "oops") ∉ (importSelectedPagesWithProgress settingsA
        (envWith (fun _ => false) (fun _ => none))
        (bookWith [pageWith 1 "aaaa"]) [1, 5] none).1.errors ∧
    lookupPage 5 (importSelectedPagesWithProgress settingsA
        (envWith (fun _ => false) (fun _ => none))
        (bookWith [pageWith 1 "aaaa"]) [1, 5] none).2.1.importedPages = none ∧
    (5, WriteKind.pageDoc) ∉ (importSelectedPagesWithProgress settingsA
        (envWith (fun _ => false) (fun _ => none))
        (bookWith [pageWith 1 "aaaa"]) [1, 5] none).2.2 := by
  have h := importRun_skips_absent_pages settingsA (envWith (fun _ => false) (fun _ => none))
    (bookWith [pageWith 1 "aaaa"]) [1, 5] none 5 (by decide) (by decide)
  exact ⟨h.1, h.2.1, h.2.2.1, h.2.2.2.1, h.2.2.2.2.1 "oops", h.2.2.2.2.2.1,
    h.2.2.2.2.2.2 WriteKind.pageDoc⟩

theorem audioWritesFor_sub (env : ExecEnv) (em : Option ImportManifest) (page : PageData) :
    ∀ k ∈ audioWritesFor env em page, k = WriteKind.audioArtifact := by
  intro k hk
  unfold audioWritesFor at hk
  dsimp only [] at hk
  rcases haud : page.audio with _ | a <;> rw [haud] at hk
  · simp at hk
  · dsimp only [] at hk
    split at hk
    · split at hk
      · simp at hk
        exact hk
      · simp at hk
    · simp at hk
      exact hk

theorem svgWritesFor_sub (settings : ViwoodsSettings) (env : ExecEnv)
    (em : Option ImportManifest) (page : PageData) :
    ∀ k ∈ svgWritesFor settings env em page, k = WriteKind.svgArtifact := by
  intro k hk
  unfold svgWritesFor at hk
  dsimp only [] at hk
  split at hk
  · split at hk
    · split at hk
      · simp at hk
        exact hk
      · simp at hk
    · simp at hk
      exact hk
  · simp at hk

theorem imageWritesFor_spec (settings : ViwoodsSettings) (env : ExecEnv)
    (em : Option ImportManifest) (page : PageData)
    (hpng : settings.outputFormat = .png ∨ settings.outputFormat = .both)
    (hex : env.imageExists page.pageNum = true) :
    (WriteKind.imageRewrite ∈ imageWritesFor settings env em page ↔
      ((em.bind fun m => lookupPage page.pageNum m.importedPages).isNone = true ∨
       ((em.bind fun m => lookupPage page.pageNum m.importedPages).map (·.imageHash))
          ≠ some page.image.hash ∨
       ((em.bind fun m => lookupPage page.pageNum m.importedPages).bind (·.backgroundColor))
          ≠ some settings.backgroundColor)) ∧
    WriteKind.imageCreate ∉ imageWritesFor settings env em page := by
  unfold imageWritesFor
  by_cases h1 : (em.bind fun m => lookupPage page.pageNum m.importedPages).isNone = true
  · simp [hpng, hex, h1]
  · by_cases h2 : ((em.bind fun m => lookupPage page.pageNum m.importedPages).map
        (·.imageHash)) ≠ some page.image.hash
    · simp [hpng, hex, h1, h2]
    · by_cases h3 : ((em.bind fun m => lookupPage page.pageNum m.importedPages).bind
          (·.backgroundColor)) ≠ some settings.backgroundColor
      · simp [hpng, hex, h1, h2, h3]
      · simp [hpng, hex, h1, h2, h3]

/-- Claim C6: for a successfully processed selected page with the PNG
output format and an existing image artifact, the artifact is rewritten
if and only if the page is new (no manifest entry), modified (stored
fingerprint differs from the fresh digest), or the entry's recorded
background colour differs from the current setting; otherwise — an
unchanged page with an unchanged background — the artifact file is left
untouched (no rewrite and no re-creation). -/
theorem importRun_image_artifact_gate (settings : ViwoodsSettings) (env : ExecEnv)
    (book : BookResult) (pages : List Nat) (em : Option ImportManifest)
    (p : Nat) (page : PageData)
    (hp : p ∈ pages) (hf : foundPage book p = some page) (ht : env.throws p = none)
    (hpng : settings.outputFormat = .png ∨ settings.outputFormat = .both)
    (hex : env.imageExists p = true) :
    ((p, WriteKind.imageRewrite)
        ∈ (importSelectedPagesWithProgress settings env book pages em).2.2 ↔
      ((em.bind fun m => lookupPage p m.importedPages).isNone = true ∨
       ((em.bind fun m => lookupPage p m.importedPages).map (·.imageHash))
          ≠ some page.image.hash ∨
       ((em.bind fun m => lookupPage p m.importedPages).bind (·.backgroundColor))
          ≠ some settings.backgroundColor)) ∧
    (p, WriteKind.imageCreate)
        ∉ (importSelectedPagesWithProgress settings env book pages em).2.2 := by
  obtain ⟨-, -, -, hwr⟩ := importRun_spec settings env book pages em
  have hpn : page.pageNum = p := by
    have h := List.find?_some hf
    simpa using h
  have hmem : ∀ k, ((p, k)
      ∈ (importSelectedPagesWithProgress settings env book pages em).2.2 ↔
        k ∈ pageWrites settings env em page) := by
    intro k
    rw [hwr, importLoop_writes_mem settings env book em pages _ p k]
    constructor
    · rintro (h | ⟨-, pg, hpg, -, hk⟩)
      · simp [initExecState] at h
      · rw [hf] at hpg
        cases Option.some_inj.mp hpg
        exact hk
    · intro hk
      exact Or.inr ⟨hp, page, hf, ht, hk⟩
  obtain ⟨hiff, hnc⟩ := imageWritesFor_spec settings env em page hpng (hpn ▸ hex)
  constructor
  · rw [hmem WriteKind.imageRewrite]
    unfold pageWrites
    rw [hpn] at hiff
    rw [← hiff]
    simp only [List.mem_append, List.mem_singleton]
    constructor
    · rintro (((h | h) | h) | h)
      · exact absurd (audioWritesFor_sub env em page _ h) (by simp)
      · exact h
      · exact absurd (svgWritesFor_sub settings env em page _ h) (by simp)
      · cases h
    · intro h
      exact Or.inl (Or.inl (Or.inr h))
  · rw [hmem WriteKind.imageCreate]
    unfold pageWrites
    simp only [List.mem_append, List.mem_singleton]
    rintro (((h | h) | h) | h)
    · exact absurd (audioWritesFor_sub env em page _ h) (by simp)
    · exact hnc h
    · exact absurd (svgWritesFor_sub settings env em page _ h) (by simp)
    · cases h

/-- Witness for claim C6: an unchanged page (same fingerprint, same
recorded background colour) with an existing PNG artifact is neither
rewritten nor re-created. -/
theorem importRun_image_artifact_gate_witness :
    (1, WriteKind.imageRewrite) ∉ (importSelectedPagesWithProgress settingsA
        (envWith (fun _ => true) (fun _ => none)) (bookWith [pageWith 1 "aaaa"]) [1]
        (some (manifestWith [(1, infoWithHashBg "aaaa" "#FFFFFF")]))).2.2 ∧
    (1, WriteKind.imageCreate) ∉ (importSelectedPagesWithProgress settingsA
        (envWith (fun _ => true) (fun _ => none)) (bookWith [pageWith 1 "aaaa"]) [1]
        (some (manifestWith [(1, infoWithHashBg "aaaa" "#FFFFFF")]))).2.2 := by
  have h := importRun_image_artifact_gate settingsA (envWith (fun _ => true) (fun _ => none))
    (bookWith [pageWith 1 "aaaa"]) [1] (some (manifestWith [(1, infoWithHashBg "aaaa" "#FFFFFF")]))
    1 (pageWith 1 "aaaa") (by decide) (by decide) (by decide) (Or.inl (by decide)) (by decide)
  exact ⟨fun hm => absurd (h.1.mp hm) (by decide), h.2⟩

theorem digitChar_mod16_ne_l (x : Nat) : Nat.digitChar (x % 16) ≠ 'l' := by
  have hlt : x % 16 < 16 := Nat.mod_lt _ (by decide)
  have hall : ∀ y < 16, Nat.digitChar y ≠ 'l' := by decide
  exact hall _ hlt

theorem fallback_take3 (s : Nat) :
    (hashImageData none s).data.take 3 = ['f', 'a', 'l'] := by
  unfold hashImageData jsSubstringTo jsPadEnd
  simp only []
  rw [List.take_take]
  norm_num

theorem fallback_not_special (s : Nat) :
    isSpecialHash (hashImageData none s) = false := by
  unfold isSpecialHash jsStartsWith
  rw [Bool.or_eq_false_iff]
  constructor
  · rw [beq_eq_false_iff_ne]
    intro hchain
    have h3 := congrArg (List.take 3) hchain
    rw [List.take_take] at h3
    norm_num at h3
    rw [fallback_take3] at h3
    simp at h3
  · rw [beq_eq_false_iff_ne]
    intro hchain
    have h3 := congrArg (List.take 3) hchain
    rw [List.take_take] at h3
    norm_num at h3
    rw [fallback_take3] at h3
    simp at h3

theorem hashImageData_digest_ne_fallback (bytes : List Nat) (s1 s2 : Nat)
    (hlen : bytes.length = 32) :
    hashImageData (some bytes) s1 ≠ hashImageData none s2 := by
  intro heq
  have h3 : (hashImageData (some bytes) s1).data.take 3 = ['f', 'a', 'l'] := by
    rw [heq]
    exact fallback_take3 s2
  rcases bytes with _ | ⟨b0, bytes⟩
  · simp at hlen
  rcases bytes with _ | ⟨b1, rest⟩
  · simp at hlen
  unfold hashImageData jsSubstringTo byteToHex at h3
  simp only [List.map_cons, List.flatten_cons] at h3
  rw [List.take_take] at h3
  norm_num at h3
  exact digitChar_mod16_ne_l (b1 / 16) h3.2.2

/-- Counterexample to claim C8: the stored baseline and the fresh
digest are both the fallback fingerprint of a 100-byte blob (digest
failure on both imports); downstream comparison in `analyzeChanges`
treats them as a genuine match and classifies the page unchanged, so a
fallback fingerprint is silently matched to another fallback
fingerprint. -/
theorem hashImageData_fallback_match_counterexample :
    (analyzeChanges (bookWith [pageWith 1 (hashImageData none 100)])
        (some (manifestWith [(1, infoWithHash (hashImageData none 100))]))
        (fun _ => none)).2.unchangedPages = [1] ∧
    jsStartsWith (hashImageData none 100) "fallback-" = true := by
  constructor
  · decide
  · decide

/-- Claim C8 (amended): on digest failure `hashImageData` returns a
`fallback-`-prefixed fingerprint derived from the blob's byte length
that never equals any real digest (prefix-distinguishable: a real
digest of the 32 SHA-256 bytes is pure hex); however downstream
fingerprint comparison treats a fallback like an ordinary digest: two
fallback fingerprints from blobs of equal byte length compare equal,
and `analyzeChanges` classifies such a page as unchanged instead of
flagging the low-confidence match. -/
theorem hashImageData_fallback_amended (bytes : List Nat) (s1 s2 : Nat)
    (hlen : bytes.length = 32) :
    hashImageData (some bytes) s1 ≠ hashImageData none s2 ∧
    (analyzeChanges (bookWith [pageWith 1 (hashImageData none s2)])
        (some (manifestWith [(1, infoWithHash (hashImageData none s2))]))
        (fun _ => none)).2.unchangedPages = [1] := by
  constructor
  · exact hashImageData_digest_ne_fallback bytes s1 s2 hlen
  · obtain ⟨-, -, hunc, -, -⟩ := analyzeChanges_spec
      (bookWith [pageWith 1 (hashImageData none s2)])
      (manifestWith [(1, infoWithHash (hashImageData none s2))]) (fun _ => none)
      (by simp [bookWith, pageWith])
    rw [hunc]
    have hcl : classifyPage
        (buildExistingMap (manifestWith [(1, infoWithHash (hashImageData none s2))])
          (fun _ => none))
        (pageWith 1 (hashImageData none s2)) = ChangeType.unchanged := by
      unfold classifyPage
      have hlk : lookupPage (pageWith 1 (hashImageData none s2)).pageNum
          (buildExistingMap (manifestWith [(1, infoWithHash (hashImageData none s2))])
            (fun _ => none))
          = some { manifestInfo := infoWithHash (hashImageData none s2), fileHash := none } :=
        rfl
      rw [hlk]
      have hsp : isSpecialHash (baselineOf
          { manifestInfo := infoWithHash (hashImageData none s2), fileHash := none })
          = false := fallback_not_special s2
      simp only [hsp, Bool.false_eq_true, if_false]
      have hbase : baselineOf
          { manifestInfo := infoWithHash (hashImageData none s2), fileHash := none }
          = (pageWith 1 (hashImageData none s2)).image.hash := rfl
      simp [hbase]
    simp only [pageWith] at hcl
    simp [bookWith, pageWith, List.filter_cons, hcl]

/-- Witness for claim C8 (amended): the all-zero 32-byte digest never
collides with the fallback fingerprint of a 100-byte blob, and the
fallback-vs-fallback run classifies its page unchanged. -/
theorem hashImageData_fallback_amended_witness :
    hashImageData (some (List.replicate 32 0)) 0 ≠ hashImageData none 100 ∧
    (analyzeChanges (bookWith [pageWith 1 (hashImageData none 100)])
        (some (manifestWith [(1, infoWithHash (hashImageData none 100))]))
        (fun _ => none)).2.unchangedPages = [1] := by
  exact hashImageData_fallback_amended (List.replicate 32 0) 0 100 (by decide)

end Viwoods
